import Mathlib

/-!
Shallow embedding of `epd.go` (package `go.riyazali.net/epd`), a driver for a
Waveshare e-paper display.  The driver's only observable effects are toggles of
its four GPIO lines, bytes pushed through the SPI transmitter, sleeps and
busy-polls; we model each operation as the list of those low-level events it
performs, in order.  Go's `float64` arithmetic in `isdark` is modelled over the
real numbers.
-/

/-- Observable low-level effect of the driver: a toggle of one of the GPIO
lines (`rst`, `dc`, `cs`), one byte handed to the SPI `transmit` function, a
timed sleep, or one busy-poll wait loop (`idle`). -/
inductive Event where
  | rstHigh | rstLow
  | dcHigh | dcLow
  | csHigh | csLow
  | transmit (b : Nat)
  | sleepMs (ms : Nat)
  | idlePoll
deriving DecidableEq

/-- Bytes handed to the SPI transmitter, in order, extracted from a trace. -/
def txBytes : List Event → List Nat
  | [] => []
  | .transmit b :: es => b :: txBytes es
  | _ :: es => txBytes es

/-- Transmitted bytes of a trace, each tagged with the level of the
data/command select line when it was sent (`false` = command framing,
`true` = data framing).  `d` is the current `dc` level. -/
def framed (d : Bool) : List Event → List (Bool × Nat)
  | [] => []
  | .dcHigh :: es => framed true es
  | .dcLow :: es => framed false es
  | .transmit b :: es => (d, b) :: framed d es
  | _ :: es => framed d es

/-- Level of the data/command select line after replaying a trace from
initial level `d`; used to state how `framed` distributes over `++`. -/
def dcAfter (d : Bool) : List Event → Bool
  | [] => d
  | .dcHigh :: es => dcAfter true es
  | .dcLow :: es => dcAfter false es
  | _ :: es => dcAfter d es

/-- Number of pin-toggle events in a trace. -/
def pinToggles : List Event → Nat
  | [] => 0
  | .rstHigh :: es => pinToggles es + 1
  | .rstLow :: es => pinToggles es + 1
  | .dcHigh :: es => pinToggles es + 1
  | .dcLow :: es => pinToggles es + 1
  | .csHigh :: es => pinToggles es + 1
  | .csLow :: es => pinToggles es + 1
  | _ :: es => pinToggles es

/-- Update mode (`type Mode uint8`, constants `FullUpdate`/`PartialUpdate`). -/
inductive Mode where
  | FullUpdate
  | PartialUpdate
deriving DecidableEq

/-- Lookup table used whilst in full update mode (`fullUpdate` in epd.go). -/
def fullUpdate : List Nat :=
  [0x50, 0xAA, 0x55, 0xAA, 0x11, 0x00,
   0x00, 0x00, 0x00, 0x00, 0x00, 0x00,
   0x00, 0x00, 0x00, 0x00, 0x00, 0x00,
   0x00, 0x00, 0xFF, 0xFF, 0x1F, 0x00,
   0x00, 0x00, 0x00, 0x00, 0x00, 0x00]

/-- Lookup table used whilst in partial update mode (`partialUpdate` in epd.go). -/
def partialUpdate : List Nat :=
  [0x10, 0x18, 0x18, 0x08, 0x18, 0x18,
   0x08, 0x00, 0x00, 0x00, 0x00, 0x00,
   0x00, 0x00, 0x00, 0x00, 0x00, 0x00,
   0x00, 0x00, 0x13, 0x14, 0x44, 0x12,
   0x00, 0x00, 0x00, 0x00, 0x00, 0x00]

/-- The driver state (`type EPD struct`): the panel dimensions together with
the injected pin and transmitter capabilities.  The pins and the transmitter
are opaque host-supplied values (types `P` for writeable pins, `R` for the
readable busy pin, `T` for the SPI transmitter); the trace semantics never
inspects them, exactly as the Go driver only ever forwards to them. -/
structure EPD (P R T : Type) where
  Height : Nat
  Width : Nat
  rst : P
  dc : P
  cs : P
  busy : R
  transmit : T

/-- Constructor `New(rst, dc, cs, busy, transmit)`: builds the driver with the
fixed geometry `{296, 128}`. -/
def New {P R T : Type} (rst dc cs : P) (busy : R) (transmit : T) : EPD P R T :=
  ⟨296, 128, rst, dc, cs, busy, transmit⟩

variable {P R T : Type}

/-- Trace of `reset()`: rst HIGH, sleep 200ms, LOW, sleep 10ms, HIGH, sleep 200ms. -/
def EPD.reset (_epd : EPD P R T) : List Event :=
  [.rstHigh, .sleepMs 200, .rstLow, .sleepMs 10, .rstHigh, .sleepMs 200]

/-- Trace of `command(c)`: dc LOW, cs LOW, transmit the byte, cs HIGH. -/
def EPD.command (_epd : EPD P R T) (c : Nat) : List Event :=
  [.dcLow, .csLow, .transmit c, .csHigh]

/-- Trace of `data(d)`: dc HIGH, cs LOW, transmit the byte, cs HIGH. -/
def EPD.data (_epd : EPD P R T) (d : Nat) : List Event :=
  [.dcHigh, .csLow, .transmit d, .csHigh]

/-- Trace of `idle()`: one busy-poll wait (the poll loop transmits nothing and
toggles no pins, so it is a single event in the trace model). -/
def EPD.idle (_epd : EPD P R T) : List Event :=
  [.idlePoll]

/-- Trace of `Mode(mode)`: reset, then the fixed register configuration
sequence, then command 0x32 followed by the 30-byte lookup table selected by
`mode` (see epd.go lines 119-161). -/
def EPD.Mode (epd : EPD P R T) (mode : Mode) : List Event :=
  epd.reset
  -- DRIVER_OUTPUT_CONTROL
  ++ epd.command 0x01
  ++ epd.data ((epd.Height - 1) &&& 0xFF)
  ++ epd.data (((epd.Height - 1) >>> 8) &&& 0xFF)
  ++ epd.data 0x00
  -- BOOSTER_SOFT_START_CONTROL
  ++ epd.command 0x0C
  ++ epd.data 0xD7
  ++ epd.data 0xD6
  ++ epd.data 0x9D
  -- WRITE_VCOM_REGISTER
  ++ epd.command 0x2C
  ++ epd.data 0xA8
  -- SET_DUMMY_LINE_PERIOD
  ++ epd.command 0x3A
  ++ epd.data 0x1A
  -- SET_GATE_TIME
  ++ epd.command 0x3B
  ++ epd.data 0x08
  -- DATA_ENTRY_MODE_SETTING
  ++ epd.command 0x11
  ++ epd.data 0x03
  -- WRITE_LUT_REGISTER
  ++ epd.command 0x32
  ++ (if mode = Mode.PartialUpdate then partialUpdate else fullUpdate).flatMap epd.data

/-- Trace of `Sleep()`: command 0x10 followed by data 0x01. -/
def EPD.Sleep (epd : EPD P R T) : List Event :=
  epd.command 0x10 ++ epd.data 0x01

/-- Trace of `turnOnDisplay()`: command 0x22, data 0xC4, command 0x20,
command 0xFF, then `idle()`. -/
def EPD.turnOnDisplay (epd : EPD P R T) : List Event :=
  epd.command 0x22 ++ epd.data 0xC4 ++ epd.command 0x20 ++ epd.command 0xFF ++ epd.idle

/-- Trace of `window(x0, x1, y0, y1)` (`x0 x1 : byte`, `y0 y1 : uint16`):
command 0x44 with the two x-coordinates right-shifted by 3, then command 0x45
with the two y-coordinates in little-endian 16-bit form. -/
def EPD.window (epd : EPD P R T) (x0 x1 y0 y1 : Nat) : List Event :=
  epd.command 0x44
  ++ epd.data ((x0 >>> 3) &&& 0xFF)
  ++ epd.data ((x1 >>> 3) &&& 0xFF)
  ++ epd.command 0x45
  ++ epd.data (y0 &&& 0xFF)
  ++ epd.data ((y0 >>> 8) &&& 0xFF)
  ++ epd.data (y1 &&& 0xFF)
  ++ epd.data ((y1 >>> 8) &&& 0xFF)

/-- Trace of `cursor(x, y)` (`x : uint8`, `y : uint16`): command 0x4E with the
x-coordinate right-shifted by 3, command 0x4F with the y-coordinate in
little-endian 16-bit form, then `idle()`. -/
def EPD.cursor (epd : EPD P R T) (x y : Nat) : List Event :=
  epd.command 0x4E
  ++ epd.data ((x >>> 3) &&& 0xFF)
  ++ epd.command 0x4F
  ++ epd.data (y &&& 0xFF)
  ++ epd.data ((y >>> 8) &&& 0xFF)
  ++ epd.idle

/-- Direct transliteration of `isdark(r, g, b, _ uint32) bool` with Go's
`float64` arithmetic modelled over the real numbers:
`math.Sqrt(0.299*r^2 + 0.587*g^2 + 0.114*b^2) <= 130`. -/
def isdarkReal (r g b _a : Nat) : Prop :=
  Real.sqrt (0.299 * (r : ℝ) ^ 2 + 0.587 * (g : ℝ) ^ 2 + 0.114 * (b : ℝ) ^ 2) ≤ 130

/-- Executable form of `isdark`: squaring the (nonnegative) threshold and
clearing denominators turns `sqrt(0.299 r^2 + 0.587 g^2 + 0.114 b^2) <= 130`
into the integer comparison below.  `isdark_eq_isdarkReal` proves this form
equivalent to the transliterated `isdarkReal`. -/
def isdark (r g b _a : Nat) : Bool :=
  299 * r ^ 2 + 587 * g ^ 2 + 114 * b ^ 2 ≤ 16900000

/-- Result of `color.Color.RGBA()`: alpha-premultiplied 16-bit-per-channel
samples as `uint32` values (modelled as naturals). -/
structure RGBA where
  r : Nat
  g : Nat
  b : Nat
  a : Nat
deriving DecidableEq

/-- Model of the `image.Image` interface as `Draw` consumes it:
`width`/`height` are `Bounds().Size().X`/`.Y`, `uniform` records whether the
dynamic type is `*image.Uniform` (the Go type assertion in `Draw`), and `At`
is `img.At(x, y).RGBA()`. -/
structure Image where
  width : Nat
  height : Nat
  uniform : Bool
  At : Nat → Nat → RGBA

/-- Model of `image.White`: a `*image.Uniform` of `color.Gray16{0xffff}`,
whose bounds are the huge fixed rectangle of `image.Uniform` (side 2·10⁹) and
whose every pixel samples to (0xFFFF, 0xFFFF, 0xFFFF, 0xFFFF). -/
def imageWhite : Image :=
  ⟨2000000000, 2000000000, true, fun _ _ => ⟨0xFFFF, 0xFFFF, 0xFFFF, 0xFFFF⟩⟩

/-- Model of `image.Black`: a `*image.Uniform` of `color.Gray16{0}`, with the
same huge bounds and every pixel sampling to (0, 0, 0, 0xFFFF). -/
def imageBlack : Image :=
  ⟨2000000000, 2000000000, true, fun _ _ => ⟨0, 0, 0, 0xFFFF⟩⟩

/-- The inner pixel loop of `Draw` for one output byte: starting from
`b = 0xFF`, clear bit `7 - px` (`b &= ^(0x80 >> (px % 8))`) for each of the 8
pixels `(j+px, i)` that `isdark` classifies dark.  Go's bitwise complement on
`int` is taken on the low 8 bits, which is exact because `b` stays below
0x100. -/
def rowByte (img : Image) (i j : Nat) : Nat :=
  (List.range 8).foldl
    (fun b px =>
      let pixel := img.At (j + px) i
      if isdark pixel.r pixel.g pixel.b pixel.a then
        b &&& (0xFF ^^^ (0x80 >>> (px % 8)))
      else b)
    0xFF

/-- The single domain error of the driver, `ErrInvalidImageSize`. -/
inductive EpdError where
  | invalidImageSize
deriving DecidableEq

/-- Trace semantics of `Draw(img)`: the list of events performed together with
the returned error (`none` = Go `nil`).  Mirrors epd.go lines 216-242: the
size check, the full-frame `window`, the per-row `cursor` + WRITE_RAM (0x24) +
byte loop (`j` stepping by 8 across the row), and `turnOnDisplay()`. -/
def EPD.Draw (epd : EPD P R T) (img : Image) : List Event × Option EpdError :=
  let isvertical := img.width == epd.Width && img.height == epd.Height
  if !img.uniform && !isvertical then
    ([], some .invalidImageSize)
  else
    (epd.window 0 (epd.Width - 1) 0 (epd.Height - 1)
      ++ (List.range epd.Height).flatMap (fun i =>
            epd.cursor 0 i
            ++ epd.command 0x24
            ++ (List.range ((epd.Width + 7) / 8)).flatMap (fun jd =>
                  epd.data (rowByte img i (8 * jd))))
      ++ epd.turnOnDisplay,
     none)

/-- Model of `color.Color` values as `Clear` consumes them: Go compares the
argument against the sentinel `color.White` with interface equality, which
compares the dynamic type and the value, so the model keeps both. -/
inductive Color where
  | gray16 (y : Nat)
  | gray (y : Nat)
  | rgba (r g b a : Nat)
  | nrgba (r g b a : Nat)
deriving DecidableEq

/-- The sentinel `color.White = color.Gray16{0xffff}`. -/
def colorWhite : Color := .gray16 0xFFFF

/-- Trace semantics of `Clear(c)`: draw `image.White` when `c == color.White`
and `image.Black` otherwise; the error returned by `Draw` is discarded, so
`Clear` yields only the trace. -/
def EPD.Clear (epd : EPD P R T) (c : Color) : List Event :=
  let img := if c = colorWhite then imageWhite else imageBlack
  (epd.Draw img).1

/-- Specification-side description of the event sequence a successful `Draw`
must produce (§4.5 / §8 of the spec, claim C2), parametric in the per-row data
payloads: set the full-frame window, then for each row `i` in `[0, Height)` a
cursor-set to `(0, i)`, the WRITE_RAM command 0x24 and the row's data bytes,
and finally the turn-on sequence — command 0x22 with data 0xC4, command 0x20,
command 0xFF, then a busy idle-wait. -/
def drawSpecTrace (epd : EPD P R T) (rowData : Nat → List Nat) : List Event :=
  epd.window 0 (epd.Width - 1) 0 (epd.Height - 1)
  ++ (List.range epd.Height).flatMap (fun i =>
        epd.cursor 0 i ++ epd.command 0x24 ++ (rowData i).flatMap epd.data)
  ++ (epd.command 0x22 ++ epd.data 0xC4 ++ epd.command 0x20 ++ epd.command 0xFF ++ epd.idle)

theorem isdark_eq_isdarkReal (r g b a : Nat) :
    isdark r g b a = true ↔ isdarkReal r g b a := by
  unfold isdark isdarkReal
  rw [decide_eq_true_iff]
  constructor
  · intro h
    rw [show (130 : ℝ) = Real.sqrt (130 ^ 2) by
      rw [Real.sqrt_sq]; norm_num]
    apply Real.sqrt_le_sqrt
    have h' : (299 * r ^ 2 + 587 * g ^ 2 + 114 * b ^ 2 : ℝ) ≤ 16900000 := by
      exact_mod_cast h
    nlinarith [h']
  · intro h
    have hnn : (0 : ℝ) ≤ 0.299 * (r : ℝ) ^ 2 + 0.587 * (g : ℝ) ^ 2 + 0.114 * (b : ℝ) ^ 2 := by
      positivity
    have h2 : (0.299 * (r : ℝ) ^ 2 + 0.587 * (g : ℝ) ^ 2 + 0.114 * (b : ℝ) ^ 2) ≤ 130 ^ 2 := by
      calc 0.299 * (r : ℝ) ^ 2 + 0.587 * (g : ℝ) ^ 2 + 0.114 * (b : ℝ) ^ 2
          = Real.sqrt (0.299 * (r : ℝ) ^ 2 + 0.587 * (g : ℝ) ^ 2 + 0.114 * (b : ℝ) ^ 2) ^ 2 := by
            rw [Real.sq_sqrt hnn]
        _ ≤ 130 ^ 2 := by
            apply pow_le_pow_left₀ (Real.sqrt_nonneg _) h
    have h3 : (299 * r ^ 2 + 587 * g ^ 2 + 114 * b ^ 2 : ℝ) ≤ 16900000 := by nlinarith [h2]
    exact_mod_cast h3

/-! Small laws for the trace views `txBytes`, `framed`, `dcAfter`: one
unfolding lemma per event constructor, distribution over `++`, and their
values on the framing helpers `command`/`data`/`reset`/`idle`. -/

theorem and255_eq_mod (x : Nat) : x &&& 255 = x % 256 := by
  have h := Nat.and_pow_two_sub_one_eq_mod x 8
  norm_num at h
  exact h

@[simp] theorem txBytes_nil : txBytes [] = [] := rfl

@[simp] theorem txBytes_rstHigh (es : List Event) : txBytes (.rstHigh :: es) = txBytes es := rfl

@[simp] theorem txBytes_rstLow (es : List Event) : txBytes (.rstLow :: es) = txBytes es := rfl

@[simp] theorem txBytes_dcHigh (es : List Event) : txBytes (.dcHigh :: es) = txBytes es := rfl

@[simp] theorem txBytes_dcLow (es : List Event) : txBytes (.dcLow :: es) = txBytes es := rfl

@[simp] theorem txBytes_csHigh (es : List Event) : txBytes (.csHigh :: es) = txBytes es := rfl

@[simp] theorem txBytes_csLow (es : List Event) : txBytes (.csLow :: es) = txBytes es := rfl

@[simp] theorem txBytes_transmit (b : Nat) (es : List Event) :
    txBytes (.transmit b :: es) = b :: txBytes es := rfl

@[simp] theorem txBytes_sleepMs (ms : Nat) (es : List Event) :
    txBytes (.sleepMs ms :: es) = txBytes es := rfl

@[simp] theorem txBytes_idlePoll (es : List Event) : txBytes (.idlePoll :: es) = txBytes es := rfl

@[simp] theorem framed_nil (d : Bool) : framed d [] = [] := rfl

@[simp] theorem framed_rstHigh (d : Bool) (es : List Event) :
    framed d (.rstHigh :: es) = framed d es := rfl

@[simp] theorem framed_rstLow (d : Bool) (es : List Event) :
    framed d (.rstLow :: es) = framed d es := rfl

@[simp] theorem framed_dcHigh (d : Bool) (es : List Event) :
    framed d (.dcHigh :: es) = framed true es := rfl

@[simp] theorem framed_dcLow (d : Bool) (es : List Event) :
    framed d (.dcLow :: es) = framed false es := rfl

@[simp] theorem framed_csHigh (d : Bool) (es : List Event) :
    framed d (.csHigh :: es) = framed d es := rfl

@[simp] theorem framed_csLow (d : Bool) (es : List Event) :
    framed d (.csLow :: es) = framed d es := rfl

@[simp] theorem framed_transmit (d : Bool) (b : Nat) (es : List Event) :
    framed d (.transmit b :: es) = (d, b) :: framed d es := rfl

@[simp] theorem framed_sleepMs (d : Bool) (ms : Nat) (es : List Event) :
    framed d (.sleepMs ms :: es) = framed d es := rfl

@[simp] theorem framed_idlePoll (d : Bool) (es : List Event) :
    framed d (.idlePoll :: es) = framed d es := rfl

@[simp] theorem dcAfter_nil (d : Bool) : dcAfter d [] = d := rfl

@[simp] theorem dcAfter_rstHigh (d : Bool) (es : List Event) :
    dcAfter d (.rstHigh :: es) = dcAfter d es := rfl

@[simp] theorem dcAfter_rstLow (d : Bool) (es : List Event) :
    dcAfter d (.rstLow :: es) = dcAfter d es := rfl

@[simp] theorem dcAfter_dcHigh (d : Bool) (es : List Event) :
    dcAfter d (.dcHigh :: es) = dcAfter true es := rfl

@[simp] theorem dcAfter_dcLow (d : Bool) (es : List Event) :
    dcAfter d (.dcLow :: es) = dcAfter false es := rfl

@[simp] theorem dcAfter_csHigh (d : Bool) (es : List Event) :
    dcAfter d (.csHigh :: es) = dcAfter d es := rfl

@[simp] theorem dcAfter_csLow (d : Bool) (es : List Event) :
    dcAfter d (.csLow :: es) = dcAfter d es := rfl

@[simp] theorem dcAfter_transmit (d : Bool) (b : Nat) (es : List Event) :
    dcAfter d (.transmit b :: es) = dcAfter d es := rfl

@[simp] theorem dcAfter_sleepMs (d : Bool) (ms : Nat) (es : List Event) :
    dcAfter d (.sleepMs ms :: es) = dcAfter d es := rfl

@[simp] theorem dcAfter_idlePoll (d : Bool) (es : List Event) :
    dcAfter d (.idlePoll :: es) = dcAfter d es := rfl

@[simp] theorem txBytes_append (l1 l2 : List Event) :
    txBytes (l1 ++ l2) = txBytes l1 ++ txBytes l2 := by
  induction l1 with
  | nil => rfl
  | cons e es ih => cases e <;> simp [ih]

@[simp] theorem dcAfter_append (d : Bool) (l1 l2 : List Event) :
    dcAfter d (l1 ++ l2) = dcAfter (dcAfter d l1) l2 := by
  induction l1 generalizing d with
  | nil => rfl
  | cons e es ih => cases e <;> simp [ih]

@[simp] theorem framed_append (d : Bool) (l1 l2 : List Event) :
    framed d (l1 ++ l2) = framed d l1 ++ framed (dcAfter d l1) l2 := by
  induction l1 generalizing d with
  | nil => rfl
  | cons e es ih => cases e <;> simp [ih]

@[simp] theorem txBytes_command (epd : EPD P R T) (c : Nat) :
    txBytes (epd.command c) = [c] := rfl

@[simp] theorem txBytes_data (epd : EPD P R T) (b : Nat) :
    txBytes (epd.data b) = [b] := rfl

@[simp] theorem txBytes_reset (epd : EPD P R T) : txBytes epd.reset = [] := rfl

@[simp] theorem txBytes_idle (epd : EPD P R T) : txBytes epd.idle = [] := rfl

@[simp] theorem framed_command (d : Bool) (epd : EPD P R T) (c : Nat) :
    framed d (epd.command c) = [(false, c)] := rfl

@[simp] theorem framed_data (d : Bool) (epd : EPD P R T) (b : Nat) :
    framed d (epd.data b) = [(true, b)] := rfl

@[simp] theorem framed_reset (d : Bool) (epd : EPD P R T) : framed d epd.reset = [] := rfl

@[simp] theorem framed_idle (d : Bool) (epd : EPD P R T) : framed d epd.idle = [] := rfl

@[simp] theorem dcAfter_command (d : Bool) (epd : EPD P R T) (c : Nat) :
    dcAfter d (epd.command c) = false := rfl

@[simp] theorem dcAfter_data (d : Bool) (epd : EPD P R T) (b : Nat) :
    dcAfter d (epd.data b) = true := rfl

@[simp] theorem dcAfter_reset (d : Bool) (epd : EPD P R T) : dcAfter d epd.reset = d := rfl

@[simp] theorem dcAfter_idle (d : Bool) (epd : EPD P R T) : dcAfter d epd.idle = d := rfl

theorem txBytes_flatMap_data (epd : EPD P R T) (l : List Nat) :
    txBytes (l.flatMap epd.data) = l := by
  induction l with
  | nil => rfl
  | cons b bs ih => simp [List.flatMap_cons, ih]

theorem framed_flatMap_data (d : Bool) (epd : EPD P R T) (l : List Nat) :
    framed d (l.flatMap epd.data) = l.map (fun b => (true, b)) := by
  induction l generalizing d with
  | nil => rfl
  | cons b bs ih => simp [List.flatMap_cons, ih]


set_option maxHeartbeats 8000000 in
/-- Bit-level content of the inner pixel loop of `Draw`: folding the
clear-bit step over `px = 0..7` from initial byte 0xFF leaves bit `7 - px`
cleared exactly for the positions the classifier `d` marks dark. -/
theorem packFold_testBit (d : Nat → Bool) (px : Nat) (hpx : px < 8) :
    ((List.range 8).foldl
        (fun b q => if d q then b &&& (0xFF ^^^ (0x80 >>> (q % 8))) else b)
        0xFF).testBit (7 - px) = false ↔ d px = true := by
  have hr : (List.range 8).foldl
      (fun b q => if d q then b &&& (0xFF ^^^ (0x80 >>> (q % 8))) else b) 0xFF
      = List.foldl (fun b q => if d q then b &&& (0xFF ^^^ (0x80 >>> (q % 8))) else b)
          0xFF [0, 1, 2, 3, 4, 5, 6, 7] := rfl
  rw [hr]
  simp only [List.foldl_cons, List.foldl_nil]
  interval_cases px <;>
    cases d 0 <;> cases d 1 <;> cases d 2 <;> cases d 3 <;>
    cases d 4 <;> cases d 5 <;> cases d 6 <;> cases d 7 <;> decide

/-- Helper image exercising the invalid-size branch of `Draw`: 10x10 bounds,
not uniform. -/
def smallTestImage : Image := ⟨10, 10, false, fun _ _ => ⟨0, 0, 0, 0⟩⟩

/-- Claim C10: every driver value produced by `New` has Width 128 and Height
296, whatever pin and transmitter arguments are supplied, and the width is a
multiple of 8 (the byte-packable-row invariant). -/
theorem New_geometry {P R T : Type} (rst dc cs : P) (busy : R) (tx : T) :
    (New rst dc cs busy tx).Width = 128
    ∧ (New rst dc cs busy tx).Height = 296
    ∧ 8 ∣ (New rst dc cs busy tx).Width :=
  ⟨rfl, rfl, ⟨16, rfl⟩⟩

/-- Claim C9: `Sleep()` performs exactly one command byte 0x10 followed by one
data byte 0x01 — the eight low-level events below and nothing else — and in
particular no busy idle-poll occurs after the write. -/
theorem Sleep_trace {P R T : Type} (epd : EPD P R T) :
    epd.Sleep = [.dcLow, .csLow, .transmit 0x10, .csHigh,
                 .dcHigh, .csLow, .transmit 0x01, .csHigh]
    ∧ Event.idlePoll ∉ epd.Sleep :=
  ⟨rfl, by simp [EPD.Sleep, EPD.command, EPD.data]⟩

/-- Claim C8: for all in-range coordinates, `window(x0,x1,y0,y1)` transmits
exactly command 0x44 followed by the two data bytes `x0>>3` and `x1>>3`, then
command 0x45 followed by four data bytes giving `y0` and `y1` each as a
little-endian 16-bit pair. -/
theorem window_bytes {P R T : Type} (epd : EPD P R T) (d0 : Bool) (x0 x1 y0 y1 : Nat)
    (hx0 : x0 < 256) (hx1 : x1 < 256) (hy0 : y0 < 65536) (hy1 : y1 < 65536) :
    framed d0 (epd.window x0 x1 y0 y1)
      = [(false, 0x44), (true, x0 / 8), (true, x1 / 8),
         (false, 0x45), (true, y0 % 256), (true, y0 / 256),
         (true, y1 % 256), (true, y1 / 256)] := by
  have m8 : ∀ x : Nat, x &&& 255 = x % 256 := fun x => by
    have h := Nat.and_pow_two_sub_one_eq_mod x 8
    norm_num at h
    exact h
  have s3 : ∀ x : Nat, x >>> 3 = x / 8 := fun x => by
    simpa using Nat.shiftRight_eq_div_pow x 3
  have s8 : ∀ x : Nat, x >>> 8 = x / 256 := fun x => by
    simpa using Nat.shiftRight_eq_div_pow x 8
  have e1 : x0 / 8 % 256 = x0 / 8 := Nat.mod_eq_of_lt (by omega)
  have e2 : x1 / 8 % 256 = x1 / 8 := Nat.mod_eq_of_lt (by omega)
  have e3 : y0 / 256 % 256 = y0 / 256 := Nat.mod_eq_of_lt (by omega)
  have e4 : y1 / 256 % 256 = y1 / 256 := Nat.mod_eq_of_lt (by omega)
  simp only [EPD.window, EPD.command, EPD.data, List.cons_append, List.nil_append]
  simp only [framed, m8, s3, s8, e1, e2, e3, e4]

/-- Claim C6: the byte streams transmitted by `Mode(FullUpdate)` and
`Mode(PartialUpdate)` share the same prefix and differ only in the final 30
bytes, which are the fixed `fullUpdate` and `partialUpdate` vendor lookup
tables respectively. -/
theorem Mode_lut_only_difference {P R T : Type} (rst dc cs : P) (busy : R) (tx : T) :
    ∃ pre : List Nat,
      txBytes ((New rst dc cs busy tx).Mode Mode.FullUpdate) = pre ++ fullUpdate
      ∧ txBytes ((New rst dc cs busy tx).Mode Mode.PartialUpdate) = pre ++ partialUpdate
      ∧ fullUpdate.length = 30 ∧ partialUpdate.length = 30 := by
  refine ⟨[0x01, 0x27, 0x01, 0x00, 0x0C, 0xD7, 0xD6, 0x9D, 0x2C, 0xA8,
           0x3A, 0x1A, 0x3B, 0x08, 0x11, 0x03, 0x32], ?_, ?_, rfl, rfl⟩ <;>
    simp [EPD.Mode, New, txBytes_flatMap_data, and255_eq_mod, fullUpdate, partialUpdate]

/-- Claim C7: `Mode(mode)` performs, in fixed order, `reset()` and then the
register writes 0x01 (with 295 = height-1 as the little-endian pair 0x27,
0x01, plus the 0x00 flags byte), 0x0C (three booster bytes), 0x2C (VCOM),
0x3A (dummy line period), 0x3B (gate time), 0x11 (data entry mode 0x03), and
finally 0x32 followed by the 30-byte lookup table selected by `mode`. -/
theorem Mode_register_sequence {P R T : Type} (rst dc cs : P) (busy : R) (tx : T)
    (mode : Mode) (d0 : Bool) :
    ((New rst dc cs busy tx).Mode mode).take 6 = (New rst dc cs busy tx).reset
    ∧ framed d0 ((New rst dc cs busy tx).Mode mode)
      = [(false, 0x01), (true, 0x27), (true, 0x01), (true, 0x00),
         (false, 0x0C), (true, 0xD7), (true, 0xD6), (true, 0x9D),
         (false, 0x2C), (true, 0xA8),
         (false, 0x3A), (true, 0x1A),
         (false, 0x3B), (true, 0x08),
         (false, 0x11), (true, 0x03),
         (false, 0x32)]
        ++ (if mode = Mode.PartialUpdate then partialUpdate else fullUpdate).map
            (fun b => (true, b)) := by
  constructor
  · cases mode <;>
      simp [EPD.Mode, EPD.reset, EPD.command, EPD.data, New, and255_eq_mod]
  · cases mode <;>
      simp [EPD.Mode, New, framed_flatMap_data, and255_eq_mod, fullUpdate, partialUpdate]

/-- Claim C4: darkness classification is a pure function of the r, g, b
channel samples, holding exactly when sqrt(0.299 r² + 0.587 g² + 0.114 b²) is
at most 130 (Go float64 modelled over ℝ); (0,0,0) is dark, the 16-bit white
(65535,65535,65535) is not, and the boundary is exact: weighted-sqrt value
130 (r=g=b=130) and just below (r=g=b=129) classify dark, just above
(r=g=b=131) classifies not-dark. -/
theorem isdark_threshold :
    (∀ r g b a : Nat, isdark r g b a = true ↔ isdarkReal r g b a)
    ∧ (∀ a, isdark 0 0 0 a = true)
    ∧ (∀ a, isdark 65535 65535 65535 a = false)
    ∧ (∀ a, isdark 130 130 130 a = true)
    ∧ (∀ a, isdark 129 129 129 a = true)
    ∧ (∀ a, isdark 131 131 131 a = false) :=
  ⟨isdark_eq_isdarkReal, fun _ => rfl, fun _ => rfl, fun _ => rfl,
   fun _ => rfl, fun _ => rfl⟩

/-- Claim C3: each data byte built for a row encodes 8 consecutive horizontal
pixels MSB-first: starting from 0xFF, bit `7 - px` of `rowByte img i j` is
cleared to 0 exactly when the pixel at column `j + px` of row `i` is
classified dark, so the wire encoding is 1 = white, 0 = black. -/
theorem rowByte_encoding (img : Image) (i j px : Nat) (hpx : px < 8) :
    ((rowByte img i j).testBit (7 - px) = false
      ↔ isdark (img.At (j + px) i).r (img.At (j + px) i).g
          (img.At (j + px) i).b (img.At (j + px) i).a = true) :=
  packFold_testBit
    (fun q => isdark (img.At (j + q) i).r (img.At (j + q) i).g
        (img.At (j + q) i).b (img.At (j + q) i).a) px hpx

/-- Concrete check of `rowByte_encoding` at `imageBlack`, row 0, byte-column
0, pixel 0: the most significant bit is cleared because black is dark. -/
theorem rowByte_encoding_witness :
    0 < 8
    ∧ ((rowByte imageBlack 0 0).testBit (7 - 0) = false
        ↔ isdark (imageBlack.At (0 + 0) 0).r (imageBlack.At (0 + 0) 0).g
            (imageBlack.At (0 + 0) 0).b (imageBlack.At (0 + 0) 0).a = true) :=
  ⟨by decide, rowByte_encoding imageBlack 0 0 0 (by decide)⟩

/-- Claim C1: `Draw` returns the invalid-image-size error exactly when the
image is neither uniform nor exactly 128×296; when the error is returned the
trace is empty, so zero bytes are transmitted and zero pins are toggled; and
every uniform image (of any color) draws without a size error. -/
theorem Draw_invalid_size {P R T : Type} (rst dc cs : P) (busy : R) (tx : T) (img : Image) :
    (((New rst dc cs busy tx).Draw img).2 = some EpdError.invalidImageSize
      ↔ img.uniform = false ∧ ¬(img.width = 128 ∧ img.height = 296))
    ∧ (((New rst dc cs busy tx).Draw img).2 = some EpdError.invalidImageSize
      → txBytes ((New rst dc cs busy tx).Draw img).1 = []
        ∧ pinToggles ((New rst dc cs busy tx).Draw img).1 = 0)
    ∧ (img.uniform = true → ((New rst dc cs busy tx).Draw img).2 = none) := by
  by_cases hu : img.uniform = true
  · refine ⟨?_, ?_, fun _ => ?_⟩
    · simp [EPD.Draw, New, hu]
    · intro he
      simp [EPD.Draw, New, hu] at he
    · simp [EPD.Draw, New, hu]
  · have hu' : img.uniform = false := by
      revert hu
      cases img.uniform <;> simp
    by_cases hw : img.width = 128
    · by_cases hh : img.height = 296
      · refine ⟨by simp [EPD.Draw, New, hu', hw, hh], ?_, ?_⟩
        · intro he
          simp [EPD.Draw, New, hu', hw, hh] at he
        · intro hcontra
          rw [hcontra] at hu'
          exact Bool.noConfusion hu'
      · refine ⟨by simp [EPD.Draw, New, hu', hw, hh], ?_, ?_⟩
        · intro _
          refine ⟨?_, ?_⟩ <;> simp [EPD.Draw, New, hu', hw, hh, pinToggles]
        · intro hcontra
          rw [hcontra] at hu'
          exact Bool.noConfusion hu'
    · refine ⟨by simp [EPD.Draw, New, hu', hw], ?_, ?_⟩
      · intro _
        refine ⟨?_, ?_⟩ <;> simp [EPD.Draw, New, hu', hw, pinToggles]
      · intro hcontra
        rw [hcontra] at hu'
        exact Bool.noConfusion hu'

/-- Concrete check of `Draw_invalid_size`: a non-uniform 10×10 image fails
with the invalid-image-size error and performs no device I/O at all. -/
theorem Draw_invalid_size_witness :
    ((New () () () () ()).Draw smallTestImage).2 = some EpdError.invalidImageSize
    ∧ txBytes ((New () () () () ()).Draw smallTestImage).1 = []
    ∧ pinToggles ((New () () () () ()).Draw smallTestImage).1 = 0 := by
  have h := Draw_invalid_size () () () () () smallTestImage
  have he : ((New () () () () ()).Draw smallTestImage).2 = some EpdError.invalidImageSize :=
    h.1.mpr (by decide)
  exact ⟨he, (h.2.1 he).1, (h.2.1 he).2⟩

/-- Claim C2: on every exactly panel-sized image and on every uniform image,
`Draw` produces precisely the spec sequence `drawSpecTrace` — the full-frame
window 0..127 × 0..295, then for each row `i < 296` a cursor-set to (0, i)
followed by the WRITE_RAM command 0x24 and that row's data bytes, each row
carrying exactly 128/8 = 16 data bytes, and after the last row the turn-on
sequence (command 0x22 with data 0xC4, command 0x20, command 0xFF, busy
idle-wait) — and returns no error. -/
theorem Draw_trace_structure {P R T : Type} (rst dc cs : P) (busy : R) (tx : T)
    (img : Image) (h : (img.width = 128 ∧ img.height = 296) ∨ img.uniform = true) :
    ∃ rowData : Nat → List Nat,
      (New rst dc cs busy tx).Draw img
        = (drawSpecTrace (New rst dc cs busy tx) rowData, none)
      ∧ ∀ i, (rowData i).length = 128 / 8 := by
  refine ⟨fun i => (List.range 16).map (fun jd => rowByte img i (8 * jd)), ?_,
    fun i => by simp⟩
  have hcond : (!img.uniform
      && !(img.width == (New rst dc cs busy tx).Width
           && img.height == (New rst dc cs busy tx).Height)) = false := by
    rcases h with ⟨h1, h2⟩ | h1
    · simp [New, h1, h2]
    · simp [h1]
  simp only [EPD.Draw]
  rw [hcond]
  simp [drawSpecTrace, New, EPD.turnOnDisplay, List.flatMap_map]

/-- Concrete check of `Draw_trace_structure` at the uniform `imageWhite`. -/
theorem Draw_trace_structure_witness :
    ∃ rowData : Nat → List Nat,
      (New () () () () ()).Draw imageWhite
        = (drawSpecTrace (New () () () () ()) rowData, none)
      ∧ ∀ i, (rowData i).length = 128 / 8 :=
  Draw_trace_structure () () () () () imageWhite (Or.inr rfl)

/-- Rows of a constant-color image pack to 0x00 when the color is dark and
0xFF when it is not: the 8 per-pixel steps of `rowByte` all see the same
sample. -/
theorem rowByte_const (w h : Nat) (u : Bool) (p : RGBA) (i j : Nat) :
    rowByte ⟨w, h, u, fun _ _ => p⟩ i j
      = if isdark p.r p.g p.b p.a then 0x00 else 0xFF := by
  cases hd : isdark p.r p.g p.b p.a <;> simp only [rowByte, hd] <;> decide

/-- Claim C5: `Clear` substitutes `image.White` into `Draw` for the sentinel
white color and `image.Black` for every other color, discarding the returned
error so the caller never sees a failure (`Draw` in fact returns no error on
either uniform image); a non-white request paints every row byte 0x00 (all
pixels black), a white request paints every row byte 0xFF (all pixels
white). -/
theorem Clear_paints {P R T : Type} (rst dc cs : P) (busy : R) (tx : T) :
    ((New rst dc cs busy tx).Draw imageWhite).2 = none
    ∧ ((New rst dc cs busy tx).Draw imageBlack).2 = none
    ∧ (∀ c : Color, c ≠ colorWhite →
        (New rst dc cs busy tx).Clear c = ((New rst dc cs busy tx).Draw imageBlack).1)
    ∧ (New rst dc cs busy tx).Clear colorWhite = ((New rst dc cs busy tx).Draw imageWhite).1
    ∧ (∀ i j, rowByte imageBlack i j = 0x00)
    ∧ (∀ i j, rowByte imageWhite i j = 0xFF) := by
  refine ⟨rfl, rfl, fun c hc => ?_, ?_, fun i j => ?_, fun i j => ?_⟩
  · simp [EPD.Clear, hc]
  · simp [EPD.Clear]
  · simp [imageBlack, rowByte_const, isdark]
  · simp [imageWhite, rowByte_const, isdark]

/-- Concrete check of `Clear_paints`: clearing with 16-bit RGBA white — a
value different from the `color.White` sentinel under Go interface equality —
still paints the panel black. -/
theorem Clear_paints_witness :
    Color.rgba 0xFFFF 0xFFFF 0xFFFF 0xFFFF ≠ colorWhite
    ∧ (New () () () () ()).Clear (Color.rgba 0xFFFF 0xFFFF 0xFFFF 0xFFFF)
      = ((New () () () () ()).Draw imageBlack).1 :=
  ⟨by decide, (Clear_paints () () () () ()).2.2.1 _ (by decide)⟩

/-- Concrete check of `window_bytes` for the full-frame window 0..127 ×
0..295 that `Draw` sets. -/
theorem window_bytes_witness :
    (0 : Nat) < 256 ∧ (127 : Nat) < 256 ∧ (0 : Nat) < 65536 ∧ (295 : Nat) < 65536
    ∧ framed false ((New () () () () ()).window 0 127 0 295)
      = [(false, 0x44), (true, 0 / 8), (true, 127 / 8),
         (false, 0x45), (true, 0 % 256), (true, 0 / 256),
         (true, 295 % 256), (true, 295 / 256)] :=
  ⟨by decide, by decide, by decide, by decide,
   window_bytes (New () () () () ()) false 0 127 0 295
     (by decide) (by decide) (by decide) (by decide)⟩
